import Mathlib

/-!
Verification of the WaddleAI request-pipeline core against its source.

This file gives a shallow embedding, in Lean 4, of the parts of the WaddleAI
gateway that the checked properties speak about:

* `shared/utils/token_manager.py` — conversion of raw LLM tokens to
  normalized WaddleAI tokens (`calculate_waddleai_tokens`), usage
  accounting (`process_usage`, `_update_usage_records`,
  `_update_usage_cache`) and quota admission (`check_quota`);
* `shared/auth/rbac.py` — opaque API-key authentication
  (`authenticate_api_key`);
* `shared/security/prompt_security.py` — the block/sanitize action model
  and the threat rate-limit check (`check_rate_limit`);
* `shared/utils/request_router.py` — candidate-provider computation
  (`_get_available_providers`), load-balanced selection
  (`_load_balanced_selection`) and failover (`_execute_with_fallback`);
* `proxy/apps/proxy_server/main.py` — the order of effects in the
  `chat_completions` handler.

Conventions of the embedding: timestamps are integers (seconds);
database tables are lists of rows in insertion order, and pyDAL
`select().first()` is `List.find?`; Python dictionaries keyed by name
become association lists or functions from names; the bcrypt verifier
and the tokenizer are parameters, since they are external libraries.
Python floor division `//` of a nonnegative integer by a positive
rational (the DB stores rates as doubles) is embedded via `Int.fdiv`
on numerator and denominator, and proved equal to `Int.floor` of the
real quotient below.
-/

namespace WaddleAI

/-! ## Token conversion (`token_manager.py`, `calculate_waddleai_tokens`) -/

/-- One enabled row of the `token_conversion_rates` table, as cached by
`TokenManager._load_conversion_rates` into the `conversion_rates` dict
(keyed by `provider:model`; the dict holds one entry per key). -/
structure ConversionRate where
  provider : String
  model : String
  input_rate : ℚ
  output_rate : ℚ
  base_cost_per_waddleai_token : ℚ
deriving Repr, DecidableEq

/-- Lookup of `conversion_rates[f"{provider}:{model}"]`. -/
def lookupRate (rates : List ConversionRate) (provider model : String) :
    Option ConversionRate :=
  rates.find? (fun r => r.provider == provider && r.model == model)

/-- Python floor division `i // r` of a nonnegative integer by a rational:
`Int.fdiv` rounds toward negative infinity exactly as Python `//` does. -/
def pyFloorDiv (i : ℕ) (r : ℚ) : ℤ :=
  Int.fdiv ((i : ℤ) * (r.den : ℤ)) r.num

/-- `pyFloorDiv` is the floor of the exact rational quotient, for a
positive rate. -/
theorem pyFloorDiv_eq_floor (i : ℕ) (r : ℚ) (hr : 0 < r) :
    pyFloorDiv i r = ⌊(i : ℚ) / r⌋ := by
  have hnum : 0 < r.num := Rat.num_pos.mpr hr
  have hden : ((r.den : ℚ)) ≠ 0 := Nat.cast_ne_zero.mpr r.den_nz
  have hnumQ : ((r.num : ℚ)) ≠ 0 := by
    exact_mod_cast hnum.ne.symm
  have hmul : r * (r.den : ℚ) = (r.num : ℚ) := by
    nth_rewrite 1 [show r = (r.num : ℚ) / (r.den : ℚ) from (Rat.num_div_den r).symm]
    exact div_mul_cancel₀ _ hden
  have hq : (i : ℚ) / r = (((i : ℤ) * (r.den : ℤ) : ℤ) : ℚ) / ((r.num.toNat : ℕ) : ℚ) := by
    rw [show ((r.num.toNat : ℕ) : ℚ) = ((r.num : ℚ)) by
      exact_mod_cast congrArg (fun z => ((z : ℤ) : ℚ)) (Int.toNat_of_nonneg hnum.le)]
    rw [div_eq_div_iff hr.ne' hnumQ, ← hmul]
    push_cast
    ring
  rw [pyFloorDiv, Int.fdiv_eq_ediv _ hnum.le, hq, Rat.floor_intCast_div_natCast]
  congr 1
  exact (Int.toNat_of_nonneg hnum.le).symm

/-- `TokenManager.calculate_waddleai_tokens(input_tokens, output_tokens,
provider, model)`.  With a conversion-rate row present each side is
`max(1, tokens // rate) if tokens > 0 else 0`; with no row present the
default is `max(1, (input_tokens + output_tokens * 2) // 10)`. -/
def calculate_waddleai_tokens (rates : List ConversionRate)
    (input_tokens output_tokens : ℕ) (provider model : String) : ℤ :=
  match lookupRate rates provider model with
  | none => max 1 (((input_tokens : ℤ) + (output_tokens : ℤ) * 2) / 10)
  | some rate =>
      let waddleai_input : ℤ :=
        if 0 < input_tokens then max 1 (pyFloorDiv input_tokens rate.input_rate) else 0
      let waddleai_output : ℤ :=
        if 0 < output_tokens then max 1 (pyFloorDiv output_tokens rate.output_rate) else 0
      waddleai_input + waddleai_output

/-- Claim C1, spec side: `ceil(raw_input / input_divisor) +
ceil(raw_output / output_divisor)`, a side contributing 0 when its raw
count is 0. -/
def claimCeilTokens (di dOut : ℚ) (i o : ℕ) : ℤ :=
  (if 0 < i then ⌈(i : ℚ) / di⌉ else 0) + (if 0 < o then ⌈(o : ℚ) / dOut⌉ else 0)

/-- Amended C1, spec side: each side is the *floor* of the quotient,
clamped to at least 1 when the raw count is positive, and 0 when it is
zero. -/
def floorTerm (d : ℚ) (n : ℕ) : ℤ :=
  if 0 < n then max 1 ⌊(n : ℚ) / d⌋ else 0

/-- Amended C1, spec side, both sides summed. -/
def amendedFloorTokens (di dOut : ℚ) (i o : ℕ) : ℤ :=
  floorTerm di i + floorTerm dOut o

/-! ## Data model (`shared/database/models.py`)

Rows keep the source's field names.  The `llm_tokens` JSON breakdown
blobs and audit timestamps are not carried, since no checked property
mentions them.  Timestamps (`period_start`, `expires_at`, `timestamp`)
are integer seconds. -/

/-- One row of `organizations` (the tenant of the spec). -/
structure OrgRow where
  id : ℕ
  token_quota_daily : ℤ
  token_quota_monthly : ℤ
  enabled : Bool
deriving Repr, DecidableEq

/-- One row of `users`. -/
structure UserRow where
  id : ℕ
  username : String
  organization_id : ℕ
  token_quota_daily : ℤ
  token_quota_monthly : ℤ
  enabled : Bool
deriving Repr, DecidableEq

/-- One row of `api_keys`.  `none` quota fields model SQL NULL. -/
structure ApiKeyRow where
  id : ℕ
  key_id : String
  key_hash : String
  user_id : ℕ
  organization_id : ℕ
  token_quota_daily : Option ℤ
  token_quota_monthly : Option ℤ
  enabled : Bool
  expires_at : Option ℤ
deriving Repr, DecidableEq

/-- One row of `token_usage` (the UsageRecord ledger). -/
structure TokenUsageRow where
  api_key_id : ℕ
  user_id : ℕ
  organization_id : ℕ
  date : ℤ
  waddleai_tokens : ℤ
  tokens_input_total : ℕ
  tokens_output_total : ℕ
  request_count : ℕ
deriving Repr, DecidableEq

/-- One row of `usage_cache` (the QuotaCache). -/
structure UsageCacheRow where
  api_key_id : ℕ
  organization_id : ℕ
  period : String
  period_start : ℤ
  waddleai_tokens_used : ℤ
  requests_made : ℕ
deriving Repr, DecidableEq

/-- One row of `security_logs` (the SecurityEvent table). -/
structure SecurityLogRow where
  timestamp : ℤ
  api_key_id : Option ℕ
  user_id : Option ℕ
  organization_id : Option ℕ
  threat_type : String
  blocked : Bool
  ip_address : Option String
deriving Repr, DecidableEq

/-- The relational store: each table is its rows in insertion order. -/
structure Db where
  organizations : List OrgRow
  users : List UserRow
  api_keys : List ApiKeyRow
  token_usage : List TokenUsageRow
  usage_cache : List UsageCacheRow
  security_logs : List SecurityLogRow
deriving Repr, DecidableEq

/-- `row.update_record(...)` on the first row a pyDAL query returns:
replace the first list element satisfying `p`. -/
def updateFirst (p : α → Bool) (f : α → α) : List α → List α
  | [] => []
  | x :: xs => if p x then f x :: xs else x :: updateFirst p f xs

/-! ## Usage accounting (`token_manager.py`, `process_usage` and helpers) -/

/-- The result record built by `process_usage` (class `TokenUsage`;
the per-model breakdown map is omitted). -/
structure TokenUsage where
  waddleai_tokens : ℤ
  llm_tokens_input : ℕ
  llm_tokens_output : ℕ
  cost_estimate_waddleai : ℤ
  cost_estimate_usd : ℚ
deriving Repr, DecidableEq

/-- `TokenManager.calculate_cost`: 1:1 in WaddleAI tokens; USD at the
row's base cost, defaulting to 0.001 per token. -/
def calculate_cost (rates : List ConversionRate) (waddleai_tokens : ℤ)
    (provider model : String) : ℤ × ℚ :=
  match lookupRate rates provider model with
  | some rate => (waddleai_tokens, (waddleai_tokens : ℚ) * rate.base_cost_per_waddleai_token)
  | none => (waddleai_tokens, (waddleai_tokens : ℚ) * (1 / 1000))

/-- The pure computation of `TokenManager.process_usage`: estimate both
sides with the tokenizer (`count`, an external library, passed as a
parameter), convert, and cost.  The method has no parameter through
which backend-reported counts could arrive (see the C3 result). -/
def process_usage_calc (count : String → ℕ) (rates : List ConversionRate)
    (input_text output_text provider model : String) : TokenUsage :=
  let input_tokens := count input_text
  let output_tokens := count output_text
  let waddleai_tokens := calculate_waddleai_tokens rates input_tokens output_tokens provider model
  let cost := calculate_cost rates waddleai_tokens provider model
  { waddleai_tokens := waddleai_tokens
    llm_tokens_input := input_tokens
    llm_tokens_output := output_tokens
    cost_estimate_waddleai := cost.1
    cost_estimate_usd := cost.2 }

/-- `TokenManager._update_usage_cache` for one period: bump the row
keyed by `(api_key_id, period, period_start)` or insert it. -/
def update_cache_period (usage : TokenUsage) (api_key_id organization_id : ℕ)
    (period : String) (period_start : ℤ) (cache : List UsageCacheRow) :
    List UsageCacheRow :=
  match cache.find? (fun c =>
      c.api_key_id == api_key_id && c.period == period && c.period_start == period_start) with
  | some _ =>
      updateFirst
        (fun c => c.api_key_id == api_key_id && c.period == period &&
          c.period_start == period_start)
        (fun c => { c with
          waddleai_tokens_used := c.waddleai_tokens_used + usage.waddleai_tokens
          requests_made := c.requests_made + 1 })
        cache
  | none =>
      cache ++ [{ api_key_id := api_key_id
                  organization_id := organization_id
                  period := period
                  period_start := period_start
                  waddleai_tokens_used := usage.waddleai_tokens
                  requests_made := 1 }]

/-- `TokenManager._update_usage_records` followed by
`_update_usage_cache`: bump or insert the daily ledger row, then the
daily and monthly cache rows. -/
def update_usage_records (usage : TokenUsage) (api_key_id user_id organization_id : ℕ)
    (today month_start : ℤ) (db : Db) : Db :=
  let ledger :=
    match db.token_usage.find? (fun t => t.api_key_id == api_key_id && t.date == today) with
    | some _ =>
        updateFirst (fun t => t.api_key_id == api_key_id && t.date == today)
          (fun t => { t with
            waddleai_tokens := t.waddleai_tokens + usage.waddleai_tokens
            tokens_input_total := t.tokens_input_total + usage.llm_tokens_input
            tokens_output_total := t.tokens_output_total + usage.llm_tokens_output
            request_count := t.request_count + 1 })
          db.token_usage
    | none =>
        db.token_usage ++ [{ api_key_id := api_key_id
                             user_id := user_id
                             organization_id := organization_id
                             date := today
                             waddleai_tokens := usage.waddleai_tokens
                             tokens_input_total := usage.llm_tokens_input
                             tokens_output_total := usage.llm_tokens_output
                             request_count := 1 }]
  let cache1 := update_cache_period usage api_key_id organization_id "daily" today db.usage_cache
  let cache2 := update_cache_period usage api_key_id organization_id "monthly" month_start cache1
  { db with token_usage := ledger, usage_cache := cache2 }

/-! ## Quota admission (`token_manager.py`, `check_quota`) -/

/-- Python `a or b` on an optional integer: the fallback is taken when
the override is NULL *or* equals 0 (0 is falsy in Python). -/
def pyOr (override : Option ℤ) (fallback : ℤ) : ℤ :=
  match override with
  | none => fallback
  | some v => if v = 0 then fallback else v

/-- Detail for one period in the dict `check_quota` returns. -/
structure PeriodQuota where
  used : ℤ
  limit : ℤ
  remaining : ℤ
  ok : Bool
deriving Repr, DecidableEq

/-- The second component of `check_quota`: an error dict or the
per-period details. -/
inductive QuotaInfo where
  | quotaError (msg : String)
  | info (daily monthly : PeriodQuota)
deriving Repr, DecidableEq

/-- The cached usage `check_quota` reads: `usage_cache` row for
`(api_key_id, period, period_start)`, 0 when absent. -/
def cached_usage (db : Db) (api_key_id : ℕ) (period : String) (period_start : ℤ) : ℤ :=
  match db.usage_cache.find? (fun c =>
      c.api_key_id == api_key_id && c.period == period && c.period_start == period_start) with
  | some c => c.waddleai_tokens_used
  | none => 0

/-- `TokenManager.check_quota(api_key_id)`.  `today` and `month_start`
are the midnight timestamps the source computes from `utcnow()`. -/
def check_quota (db : Db) (api_key_id : ℕ) (today month_start : ℤ) :
    Bool × QuotaInfo :=
  match db.api_keys.find? (fun k => k.id == api_key_id) with
  | none => (false, .quotaError "API key not found")
  | some api_key =>
    match db.users.find? (fun u => u.id == api_key.user_id) with
    | none => (false, .quotaError "User not found")
    | some user =>
      let daily_limit := pyOr api_key.token_quota_daily user.token_quota_daily
      let monthly_limit := pyOr api_key.token_quota_monthly user.token_quota_monthly
      let daily_used := cached_usage db api_key_id "daily" today
      let monthly_used := cached_usage db api_key_id "monthly" month_start
      let daily_ok := daily_used < daily_limit
      let monthly_ok := monthly_used < monthly_limit
      (daily_ok && monthly_ok,
        .info
          { used := daily_used, limit := daily_limit,
            remaining := daily_limit - daily_used, ok := daily_ok }
          { used := monthly_used, limit := monthly_limit,
            remaining := monthly_limit - monthly_used, ok := monthly_ok })

/-- Claim C2, spec side: the effective limit is the credential override
when it is non-null, otherwise the *tenant* (organization) limit. -/
def claimEffectiveLimit (override : Option ℤ) (tenant_limit : ℤ) : ℤ :=
  match override with
  | some v => v
  | none => tenant_limit

/-- Claim C2, spec side: ok is false exactly when the pre-call input
estimate plus current-day usage exceeds the effective daily limit, or
the estimate plus current-month usage exceeds the effective monthly
limit. -/
def claimAdmissionOk (db : Db) (api_key_id : ℕ) (estimate today month_start : ℤ) : Bool :=
  match db.api_keys.find? (fun k => k.id == api_key_id) with
  | none => false
  | some api_key =>
    match db.organizations.find? (fun o => o.id == api_key.organization_id) with
    | none => false
    | some org =>
      let daily_limit := claimEffectiveLimit api_key.token_quota_daily org.token_quota_daily
      let monthly_limit := claimEffectiveLimit api_key.token_quota_monthly org.token_quota_monthly
      let daily_used := cached_usage db api_key_id "daily" today
      let monthly_used := cached_usage db api_key_id "monthly" month_start
      !(decide (estimate + daily_used > daily_limit) ||
        decide (estimate + monthly_used > monthly_limit))

/-- Amended C2, spec side: `check_quota` receives no estimate; ok is
false exactly when the current-day usage has already reached the
effective daily limit or the current-month usage has reached the
effective monthly limit, where the effective limit falls back from the
credential override to the *owning user's* limit (not the tenant's),
and a 0 override also falls back. -/
def amendedAdmissionOk (db : Db) (api_key_id : ℕ) (today month_start : ℤ) : Bool :=
  match db.api_keys.find? (fun k => k.id == api_key_id) with
  | none => false
  | some api_key =>
    match db.users.find? (fun u => u.id == api_key.user_id) with
    | none => false
    | some user =>
      let daily_limit := pyOr api_key.token_quota_daily user.token_quota_daily
      let monthly_limit := pyOr api_key.token_quota_monthly user.token_quota_monthly
      !(decide (cached_usage db api_key_id "daily" today ≥ daily_limit) ||
        decide (cached_usage db api_key_id "monthly" month_start ≥ monthly_limit))

/-! ## API-key authentication (`rbac.py`, `authenticate_api_key`) -/

/-- `api_key.split('-')`, over the character list (structural recursion
so that concrete keys evaluate). -/
def splitDashAux : List Char → List Char → List (List Char)
  | [], acc => [acc.reverse]
  | c :: cs, acc =>
      if c = '-' then acc.reverse :: splitDashAux cs []
      else splitDashAux cs (c :: acc)

/-- `api_key.split('-')`. -/
def splitDash (s : String) : List (List Char) :=
  splitDashAux s.data []

/-- The format gate of `authenticate_api_key`: at least three
dash-separated parts and the first part is `wa`. -/
def valid_key_format (api_key : String) : Bool :=
  let parts := splitDash api_key
  3 ≤ parts.length && parts.head? == some ['w', 'a']

/-- Outcome of `authenticate_api_key`: the context's user id and
api-key id, or an `AuthenticationError` message. -/
inductive AuthResult where
  | ok (user_id api_key_id : ℕ)
  | authError (msg : String)
deriving Repr, DecidableEq

/-- The loop of `authenticate_api_key` over the enabled key rows:
the first row whose stored hash verifies the presented string wins;
the winner's owning user must exist and be enabled. -/
def auth_key_loop (verify : String → String → Bool) (users : List UserRow)
    (api_key : String) : List ApiKeyRow → AuthResult
  | [] => .authError "Invalid API key"
  | r :: rest =>
      if verify api_key r.key_hash then
        match users.find? (fun u => u.id == r.user_id) with
        | some u =>
            if u.enabled then .ok u.id r.id
            else .authError "API key user is disabled"
        | none => .authError "API key user is disabled"
      else auth_key_loop verify users api_key rest

/-- `RBACManager.authenticate_api_key(api_key)`.  `verify` is
`bcrypt.verify`, passed as a parameter.  The source selects the rows
with `enabled == True` and iterates; no field other than `enabled` and
`key_hash` is consulted before a row wins. -/
def authenticate_api_key (verify : String → String → Bool) (db : Db)
    (api_key : String) : AuthResult :=
  if valid_key_format api_key then
    auth_key_loop verify db.users api_key (db.api_keys.filter (fun r => r.enabled))
  else .authError "Invalid API key format"

/-! ## Security scanner (`prompt_security.py`) -/

/-- The `Action` enum. -/
inductive SecAction where
  | log
  | sanitize
  | block
  | rate_limit
deriving Repr, DecidableEq

/-- One emitted `ThreatDetection`, reduced to the fields the pipeline
dispatch reads. -/
structure Threat where
  threat_type : String
  suggested_action : SecAction
  description : String
deriving Repr, DecidableEq

/-- The first threat whose suggested action is block, if any: the
`chat_completions` loop raises on exactly this one. -/
def firstBlocking (threats : List Threat) : Option Threat :=
  threats.find? (fun t => t.suggested_action == SecAction.block)

/-- Claim C9, spec side: the number of security-log rows satisfying the
*conjunction* of the one-hour window condition and the identifier
condition, compared against the policy threshold.  Identifier
precedence follows the source: credential id, else principal id, else
source IP; with no identifier the check passes. -/
def check_rate_limit_spec (enabled : Bool) (threshold : ℕ) (logs : List SecurityLogRow)
    (now : ℤ) (api_key_id user_id : Option ℕ) (ip_address : Option String) : Bool :=
  if !enabled then true
  else
    let idMatch : SecurityLogRow → Bool :=
      match api_key_id, user_id, ip_address with
      | some k, _, _ => fun r => r.api_key_id == some k
      | none, some u, _ => fun r => r.user_id == some u
      | none, none, some ip => fun r => r.ip_address == some ip
      | none, none, none => fun _ => true
    match api_key_id, user_id, ip_address with
    | none, none, none => true
    | _, _, _ =>
        (logs.countP (fun r => (now - 3600 < r.timestamp) && idMatch r)) < threshold

/-- What the source's `check_rate_limit` actually counts before its
loop: `self.db(conditions[0]).count()`, i.e. the rows matching only the
time-window condition.  (The loop then re-queries `threat_count &
condition` — an integer bitwise-and with a query — and the method
references `timedelta` although `prompt_security.py` imports only
`datetime`, so the call raises `NameError` before any query runs.) -/
def check_rate_limit_code_count (logs : List SecurityLogRow) (now : ℤ) : ℕ :=
  logs.countP (fun r => now - 3600 < r.timestamp)

/-! ## Request router (`request_router.py`) -/

/-- The `ProviderStats` dataclass (`avg_latency_ms` is kept as a
rational; `tokens_processed` is unused by the checked properties). -/
structure ProviderStats where
  total_requests : ℕ := 0
  successful_requests : ℕ := 0
  failed_requests : ℕ := 0
  avg_latency_ms : ℚ := 0
  last_success : Option ℤ := none
  last_failure : Option ℤ := none
  consecutive_failures : ℕ := 0
deriving Repr, DecidableEq

/-- One entry of `llm_manager.connectors`: the manager loads exactly the
`connection_links` rows with `enabled == True`, keeping the link name
and advertised model list. -/
structure Connector where
  name : String
  model_list : List String
deriving Repr, DecidableEq

/-- The skip test of `_get_available_providers`: a recent failure
(strictly within 5 minutes = 300 s of now) with no success, or with the
last failure strictly more recent than the last success. -/
def recent_failure_no_success (s : ProviderStats) (now : ℤ) : Bool :=
  match s.last_failure with
  | none => false
  | some lf =>
      (match s.last_success with
       | none => true
       | some ls => decide (ls < lf)) && decide (now - lf < 300)

/-- `LLMRequestRouter._get_available_providers(model)`.  `stats` is the
`provider_stats` dict with its `ProviderStats()` default. -/
def get_available_providers (connectors : List Connector)
    (stats : String → ProviderStats) (model : String) (now : ℤ) : List String :=
  connectors.filterMap (fun c =>
    if (c.model_list.contains model || c.model_list.isEmpty)
        && !(decide (3 ≤ (stats c.name).consecutive_failures))
        && !(recent_failure_no_success (stats c.name) now) then
      some c.name
    else none)

/-- Claim C7, spec side: exclusion requires that the recent failure is
not followed by a *strictly more recent* success, so a success carrying
the same timestamp as the failure does not rescue the link. -/
def claim_excluded (s : ProviderStats) (now : ℤ) : Bool :=
  match s.last_failure with
  | none => false
  | some lf =>
      decide (now - lf < 300) &&
      !(match s.last_success with
        | none => false
        | some ls => decide (lf < ls))

/-- Claim C7, spec side: the candidate set as the claim words it. -/
def claim_candidate_set (connectors : List Connector)
    (stats : String → ProviderStats) (model : String) (now : ℤ) : List String :=
  connectors.filterMap (fun c =>
    if (c.model_list.contains model || c.model_list.isEmpty)
        && !(decide (3 ≤ (stats c.name).consecutive_failures))
        && !(claim_excluded (stats c.name) now) then
      some c.name
    else none)

/-- Amended C7, spec side: exclusion requires that the recent failure is
not followed by a success *at least as recent* — a success at the very
timestamp of the failure already counts as recovery. -/
def amended_excluded (s : ProviderStats) (now : ℤ) : Bool :=
  match s.last_failure with
  | none => false
  | some lf =>
      decide (now - lf < 300) &&
      !(match s.last_success with
        | none => false
        | some ls => decide (lf ≤ ls))

/-- Amended C7, spec side: the candidate set with the corrected
recovery condition. -/
def amended_candidate_set (connectors : List Connector)
    (stats : String → ProviderStats) (model : String) (now : ℤ) : List String :=
  connectors.filterMap (fun c =>
    if (c.model_list.contains model || c.model_list.isEmpty)
        && !(decide (3 ≤ (stats c.name).consecutive_failures))
        && !(amended_excluded (stats c.name) now) then
      some c.name
    else none)

/-- The score of `_load_balanced_selection`:
`total_requests - successful_requests + consecutive_failures * 10`
(Python subtraction, hence over ℤ). -/
def load_score (s : ProviderStats) : ℤ :=
  (s.total_requests : ℤ) - (s.successful_requests : ℤ) + (s.consecutive_failures : ℤ) * 10

/-- `x < min_load` where `min_load` starts as `float('inf')` (`none`). -/
def ltInf (x : ℤ) : Option ℤ → Bool
  | none => true
  | some m => decide (x < m)

/-- The loop of `_load_balanced_selection`: scan the candidates,
keeping the best on a strictly smaller score only. -/
def lb_loop (stats : String → ProviderStats) :
    List String → Option ℤ → String → String
  | [], _, best => best
  | p :: rest, min_load, best =>
      if ltInf (load_score (stats p)) min_load then
        lb_loop stats rest (some (load_score (stats p))) p
      else lb_loop stats rest min_load best

/-- `LLMRequestRouter._load_balanced_selection(providers)`.  On an empty
candidate list the source raises `IndexError` at `providers[0]`; the
embedding returns `""` there, and every statement below assumes the
list is non-empty as `route_request` guarantees. -/
def load_balanced_selection (stats : String → ProviderStats)
    (providers : List String) : String :=
  match providers with
  | [] => ""
  | p :: _ => lb_loop stats providers none p

/-- Lexicographic comparison of link identifiers, character by
character. -/
def lexLt : List Char → List Char → Bool
  | [], [] => false
  | [], _ :: _ => true
  | _ :: _, [] => false
  | a :: as, b :: bs =>
      if a.toNat < b.toNat then true
      else if b.toNat < a.toNat then false
      else lexLt as bs

/-- Lexicographic order on identifiers. -/
def strLt (a b : String) : Bool :=
  lexLt a.data b.data

/-- Claim C8, spec side: the candidate minimizing the score, ties broken
by the lexicographically smallest identifier. -/
def claim_lb_selection (stats : String → ProviderStats) :
    List String → Option String
  | [] => none
  | p :: rest =>
      some (rest.foldl (fun best q =>
        if load_score (stats q) < load_score (stats best) ||
            (load_score (stats q) == load_score (stats best) && strLt q best) then q
        else best) p)

/-- Amended C8, spec side: the *first* candidate, in candidate order,
whose score is less than or equal to every candidate's score. -/
def first_min_candidate (stats : String → ProviderStats)
    (providers : List String) : Option String :=
  providers.find? (fun p =>
    providers.all (fun q => decide (load_score (stats p) ≤ load_score (stats q))))

/-- Outcome of one attempt in `_execute_with_fallback`: the manager has
no connector of that name (the loop just continues), the upstream call
returns, or it raises. -/
inductive AttemptResult where
  | noConnector
  | success (response : String)
  | failure (err : String)
deriving Repr, DecidableEq

/-- True exactly on a raising attempt. -/
def isFailure : AttemptResult → Bool
  | .failure _ => true
  | _ => false

/-- The error a raising attempt carries. -/
def errOf : AttemptResult → Option String
  | .failure e => some e
  | _ => none

/-- The failover plan of `_execute_with_fallback`: the selected provider
first, then the remaining candidates in order with the selected one
removed. -/
def providers_to_try (primary : String) (available : List String) : List String :=
  primary :: available.filter (fun p => p != primary)

/-- The loop of `_execute_with_fallback`: first success wins; a raising
attempt records its error as `last_error`; when the plan is exhausted
the router raises wrapping `last_error`. -/
def try_providers (outcome : String → AttemptResult) :
    List String → Option String → Except (Option String) String
  | [], last_error => .error last_error
  | p :: rest, last_error =>
      match outcome p with
      | .noConnector => try_providers outcome rest last_error
      | .success r => .ok r
      | .failure e => try_providers outcome rest (some e)

/-! ## Request pipeline (`proxy/apps/proxy_server/main.py`,
`chat_completions`) -/

/-- A terminal error state of the handler. -/
inductive PipelineError where
  | securityRejected (description : String)
  | quotaExceeded
  | routingFailed (msg : String)
deriving Repr, DecidableEq

/-- What a successful `route_request` hands back: the response text and
the provider actually used. -/
structure RouteOk where
  response_text : String
  provider : String
deriving Repr, DecidableEq

/-- The order of effects in `chat_completions` after scanning: raise 400
on the first threat whose action is block, then `check_quota` (raise
429), then routing (raise 503), and only then the accounting write.
The scan result (`threats`) and the routing outcome are inputs; the
final store is returned beside the wire outcome, so the theorems can
speak about which tables a path touches.  (At the accounting line the
source also passes `actual_input_tokens` / `actual_output_tokens`,
keywords `process_usage` does not accept — settled separately under C3;
the embedding performs the accounting that line intends.) -/
def chat_completions_pipeline (count : String → ℕ) (rates : List ConversionRate)
    (threats : List Threat) (routeResult : Except String RouteOk) (db : Db)
    (api_key_id user_id organization_id : ℕ) (today month_start : ℤ)
    (prompt_text model : String) : Except PipelineError String × Db :=
  match firstBlocking threats with
  | some t => (.error (.securityRejected t.description), db)
  | none =>
      if !(check_quota db api_key_id today month_start).1 then
        (.error .quotaExceeded, db)
      else
        match routeResult with
        | .error e => (.error (.routingFailed e), db)
        | .ok route =>
            let usage := process_usage_calc count rates prompt_text
              route.response_text route.provider model
            let db2 := update_usage_records usage api_key_id user_id organization_id
              today month_start db
            (.ok route.response_text, db2)

/-- Keyword arguments `chat_completions` passes at its
`token_manager.process_usage(...)` call (source order). -/
def chat_completions_usage_kwargs : List String :=
  ["input_text", "output_text", "provider", "model", "api_key_id",
   "user_id", "organization_id", "actual_input_tokens", "actual_output_tokens"]

/-- Parameters `TokenManager.process_usage` declares (besides `self`). -/
def process_usage_params : List String :=
  ["input_text", "output_text", "provider", "model", "api_key_id",
   "user_id", "organization_id"]

/-! ## Concrete fixtures -/

/-- An enabled conversion-rate row with divisors 2 and 2. -/
def rate1 : ConversionRate :=
  { provider := "openai", model := "gpt-4", input_rate := 2, output_rate := 2,
    base_cost_per_waddleai_token := 1 }

/-- A rate table holding only `rate1`. -/
def rates1 : List ConversionRate := [rate1]

/-- A tenant with limits 100 / 1000, matching `user1`. -/
def org1 : OrgRow := { id := 1, token_quota_daily := 100, token_quota_monthly := 1000, enabled := true }

/-- A principal with limits 100 / 1000. -/
def user1 : UserRow :=
  { id := 1, username := "alice", organization_id := 1,
    token_quota_daily := 100, token_quota_monthly := 1000, enabled := true }

/-- A credential with no quota overrides. -/
def key1 : ApiKeyRow :=
  { id := 1, key_id := "k1", key_hash := "h1", user_id := 1, organization_id := 1,
    token_quota_daily := none, token_quota_monthly := none, enabled := true,
    expires_at := none }

/-- Day cache row: 99 normalized tokens used today (`period_start = 20`). -/
def dayCache99 : UsageCacheRow :=
  { api_key_id := 1, organization_id := 1, period := "daily", period_start := 20,
    waddleai_tokens_used := 99, requests_made := 3 }

/-- Month cache row: 99 normalized tokens used this month (`period_start = 0`). -/
def monthCache99 : UsageCacheRow :=
  { api_key_id := 1, organization_id := 1, period := "monthly", period_start := 0,
    waddleai_tokens_used := 99, requests_made := 3 }

/-- Store for the quota scenario: limits 100 / 1000, usage 99 / 99. -/
def dbQuota : Db :=
  { organizations := [org1], users := [user1], api_keys := [key1],
    token_usage := [], usage_cache := [dayCache99, monthCache99], security_logs := [] }

/-! ## C1 — normalized-token conversion with an enabled rate row -/

/-- C1 counterexample: with divisors (2, 2) and raw counts (3, 0) the
source returns `max(1, 3 // 2) = 1`, while the claim's
`ceil(3 / 2) + 0 = 2`.  The conversion floors, it does not ceil. -/
theorem C1_counterexample :
    calculate_waddleai_tokens rates1 3 0 "openai" "gpt-4" = 1
    ∧ claimCeilTokens 2 2 3 0 = 2
    ∧ (1 : ℤ) ≠ 2 := by
  refine ⟨by decide, ?_, by decide⟩
  have h : ⌈(3 : ℚ) / 2⌉ = 2 := by
    rw [Int.ceil_eq_iff]
    constructor <;> norm_num
  simp [claimCeilTokens, h]

/-- C1 (amended): for a (provider, model) pair with an enabled
conversion-rate row with positive divisors di and do, and raw counts
i, o ≥ 0, `calculate_waddleai_tokens` returns
`max(1, floor(i / di)) + max(1, floor(o / do))` — the *floor* of each
quotient, clamped to at least 1 when its raw count is positive and
exactly 0 when its raw count is zero, never negative. -/
theorem C1_conversion_floor_clamped (rates : List ConversionRate)
    (provider model : String) (r : ConversionRate) (i o : ℕ)
    (hfind : lookupRate rates provider model = some r)
    (hi : 0 < r.input_rate) (ho : 0 < r.output_rate) :
    calculate_waddleai_tokens rates i o provider model
        = amendedFloorTokens r.input_rate r.output_rate i o
    ∧ (0 < i → 1 ≤ floorTerm r.input_rate i)
    ∧ (i = 0 → floorTerm r.input_rate i = 0)
    ∧ (0 < o → 1 ≤ floorTerm r.output_rate o)
    ∧ (o = 0 → floorTerm r.output_rate o = 0)
    ∧ 0 ≤ calculate_waddleai_tokens rates i o provider model := by
  have heq : calculate_waddleai_tokens rates i o provider model
      = amendedFloorTokens r.input_rate r.output_rate i o := by
    simp only [calculate_waddleai_tokens, hfind, amendedFloorTokens, floorTerm,
      pyFloorDiv_eq_floor i r.input_rate hi, pyFloorDiv_eq_floor o r.output_rate ho]
  have hterm_nonneg : ∀ (d : ℚ) (n : ℕ), 0 ≤ floorTerm d n := by
    intro d n
    rw [floorTerm]
    split
    · exact le_trans zero_le_one (le_max_left 1 _)
    · exact le_refl 0
  refine ⟨heq, ?_, ?_, ?_, ?_, ?_⟩
  · intro h
    rw [floorTerm, if_pos h]
    exact le_max_left 1 _
  · intro h
    rw [floorTerm, if_neg (by omega)]
  · intro h
    rw [floorTerm, if_pos h]
    exact le_max_left 1 _
  · intro h
    rw [floorTerm, if_neg (by omega)]
  · rw [heq, amendedFloorTokens]
    exact add_nonneg (hterm_nonneg _ _) (hterm_nonneg _ _)

/-- C1 witness: the amended theorem applied at rate row `rate1`
(divisors 2 and 2) and raw counts (3, 7). -/
theorem C1_conversion_floor_clamped_witness :
    calculate_waddleai_tokens rates1 3 7 "openai" "gpt-4"
        = amendedFloorTokens rate1.input_rate rate1.output_rate 3 7
    ∧ (0 < 3 → 1 ≤ floorTerm rate1.input_rate 3)
    ∧ (3 = 0 → floorTerm rate1.input_rate 3 = 0)
    ∧ (0 < 7 → 1 ≤ floorTerm rate1.output_rate 7)
    ∧ (7 = 0 → floorTerm rate1.output_rate 7 = 0)
    ∧ 0 ≤ calculate_waddleai_tokens rates1 3 7 "openai" "gpt-4" :=
  C1_conversion_floor_clamped rates1 "openai" "gpt-4" rate1 3 7 rfl
    (by norm_num [rate1]) (by norm_num [rate1])

/-! ## C10 — default conversion with no enabled rate row -/

/-- C10: with no enabled conversion-rate row for (provider, model), the
conversion returns `max(1, (raw_input + 2 * raw_output) div 10)` rather
than failing, so every accounted request on an unknown pair is billed
at least 1 normalized token, even at raw counts (0, 0). -/
theorem C10_default_conversion (rates : List ConversionRate)
    (provider model : String) (i o : ℕ)
    (h : lookupRate rates provider model = none) :
    calculate_waddleai_tokens rates i o provider model
        = max 1 (((i : ℤ) + 2 * (o : ℤ)) / 10)
    ∧ 1 ≤ calculate_waddleai_tokens rates i o provider model := by
  simp only [calculate_waddleai_tokens, h]
  constructor
  · rw [mul_comm ((o : ℕ) : ℤ) 2]
  · exact le_max_left 1 _

/-- C10 witness: the empty rate table at raw counts (0, 0) — the
request is still billed `max(1, 0 div 10) = 1`. -/
theorem C10_default_conversion_witness :
    calculate_waddleai_tokens [] 0 0 "unknown" "m" = max 1 ((((0 : ℕ) : ℤ) + 2 * ((0 : ℕ) : ℤ)) / 10)
    ∧ 1 ≤ calculate_waddleai_tokens [] 0 0 "unknown" "m" :=
  C10_default_conversion [] "unknown" "m" 0 0 rfl

/-! ## C2 — quota admission -/

/-- C2 counterexample: limits 100 / 1000, current usage 99 / 99 and a
pre-call input estimate of 5.  The claim requires rejection (99 + 5 >
100), but `check_quota` — which receives no estimate at all — admits
the request because 99 < 100. -/
theorem C2_counterexample :
    (check_quota dbQuota 1 20 0).1 = true
    ∧ claimAdmissionOk dbQuota 1 5 20 0 = false := by
  constructor
  · decide
  · decide

/-- C2 (amended): `check_quota` receives no pre-call estimate; it
returns ok = false exactly when the current-day usage has already
reached the effective daily limit or the current-month usage has
reached the effective monthly limit, where the effective limit falls
back from the credential override to the owning *user's* limit (not the
tenant's), a 0 override also falling back (Python `or`).  The detail
dict reports used / limit / remaining / ok per period from the same
reads. -/
theorem C2_check_quota_amended (db : Db) (api_key_id : ℕ) (today month_start : ℤ)
    (k : ApiKeyRow) (u : UserRow)
    (hk : db.api_keys.find? (fun x => x.id == api_key_id) = some k)
    (hu : db.users.find? (fun x => x.id == k.user_id) = some u) :
    (check_quota db api_key_id today month_start).1
        = amendedAdmissionOk db api_key_id today month_start
    ∧ (check_quota db api_key_id today month_start).2
        = QuotaInfo.info
            { used := cached_usage db api_key_id "daily" today,
              limit := pyOr k.token_quota_daily u.token_quota_daily,
              remaining := pyOr k.token_quota_daily u.token_quota_daily
                - cached_usage db api_key_id "daily" today,
              ok := decide (cached_usage db api_key_id "daily" today
                < pyOr k.token_quota_daily u.token_quota_daily) }
            { used := cached_usage db api_key_id "monthly" month_start,
              limit := pyOr k.token_quota_monthly u.token_quota_monthly,
              remaining := pyOr k.token_quota_monthly u.token_quota_monthly
                - cached_usage db api_key_id "monthly" month_start,
              ok := decide (cached_usage db api_key_id "monthly" month_start
                < pyOr k.token_quota_monthly u.token_quota_monthly) } := by
  constructor
  · simp only [check_quota, amendedAdmissionOk, hk, hu]
    rw [Bool.eq_iff_iff]
    simp only [Bool.and_eq_true, decide_eq_true_eq, Bool.not_eq_true',
      Bool.or_eq_false_iff, decide_eq_false_iff_not, ge_iff_le, not_le]
  · simp only [check_quota, hk, hu]

/-- C2 witness: the amended theorem applied at the concrete quota store
(key 1, user `alice`, limits 100 / 1000, usage 99 / 99). -/
theorem C2_check_quota_amended_witness :
    (check_quota dbQuota 1 20 0).1 = amendedAdmissionOk dbQuota 1 20 0
    ∧ (check_quota dbQuota 1 20 0).2
        = QuotaInfo.info
            { used := cached_usage dbQuota 1 "daily" 20,
              limit := pyOr key1.token_quota_daily user1.token_quota_daily,
              remaining := pyOr key1.token_quota_daily user1.token_quota_daily
                - cached_usage dbQuota 1 "daily" 20,
              ok := decide (cached_usage dbQuota 1 "daily" 20
                < pyOr key1.token_quota_daily user1.token_quota_daily) }
            { used := cached_usage dbQuota 1 "monthly" 0,
              limit := pyOr key1.token_quota_monthly user1.token_quota_monthly,
              remaining := pyOr key1.token_quota_monthly user1.token_quota_monthly
                - cached_usage dbQuota 1 "monthly" 0,
              ok := decide (cached_usage dbQuota 1 "monthly" 0
                < pyOr key1.token_quota_monthly user1.token_quota_monthly) } :=
  C2_check_quota_amended dbQuota 1 20 0 key1 user1 rfl rfl

/-! ## C3 — authoritative backend token counts -/

/-- The deterministic fallback estimator of `count_tokens`:
`len(text) // 4`. -/
def fallback_count (text : String) : ℕ :=
  text.length / 4

/-- C3: the handler extracts the backend-reported counts and passes them
as `actual_input_tokens` / `actual_output_tokens`, but
`TokenManager.process_usage` declares no such parameters (the call
raises `TypeError`), and the accountant as defined estimates from the
texts unconditionally.  At the failing input — backend reports (5, 3)
for texts `"Hello world"` / `"Hi there!"` — the accountant's raw counts
are the estimates (2, 2), not the authoritative (5, 3). -/
theorem C3_authoritative_counts_bug :
    ("actual_input_tokens" ∈ chat_completions_usage_kwargs
      ∧ "actual_input_tokens" ∉ process_usage_params)
    ∧ ("actual_output_tokens" ∈ chat_completions_usage_kwargs
      ∧ "actual_output_tokens" ∉ process_usage_params)
    ∧ (process_usage_calc fallback_count rates1
        "Hello world" "Hi there!" "openai" "gpt-4").llm_tokens_input = 2
    ∧ (process_usage_calc fallback_count rates1
        "Hello world" "Hi there!" "openai" "gpt-4").llm_tokens_output = 2
    ∧ (2 : ℕ) ≠ 5 ∧ (2 : ℕ) ≠ 3 := by
  refine ⟨⟨?_, ?_⟩, ⟨?_, ?_⟩, ?_, ?_, ?_, ?_⟩ <;> decide

/-! ## C4 — API-key expiry -/

/-- A stand-in for `bcrypt.verify`: the stored hash of `s` is `h:s`. -/
def verify_demo (presented stored : String) : Bool :=
  stored == "h:" ++ presented

/-- An enabled credential whose expiry timestamp is 1000 — equal to the
"current time" of the scenario — with a hash matching
`wa-abc-secret`. -/
def expiredKey : ApiKeyRow :=
  { id := 7, key_id := "abc", key_hash := "h:wa-abc-secret", user_id := 1,
    organization_id := 1, token_quota_daily := none, token_quota_monthly := none,
    enabled := true, expires_at := some 1000 }

/-- Store for the expiry scenario. -/
def dbAuth : Db :=
  { organizations := [org1], users := [user1], api_keys := [expiredKey],
    token_usage := [], usage_cache := [], security_logs := [] }

/-- C4: at current time 1000 the presented key `wa-abc-secret` matches a
record whose `expires_at` is exactly 1000, so the claim (and the spec's
boundary case) require `AuthenticationFailed`; the source's
`authenticate_api_key` never reads `expires_at` — its only row filter
is `enabled == True` — and authenticates successfully.  (The embedding
has no clock parameter at all, because the source consults none while
authenticating keys.) -/
theorem C4_expired_key_authenticates :
    expiredKey.expires_at = some 1000
    ∧ expiredKey.enabled = true
    ∧ authenticate_api_key verify_demo dbAuth "wa-abc-secret" = AuthResult.ok 1 7 := by
  refine ⟨rfl, rfl, ?_⟩
  decide

/-! ## C5 — a blocking threat writes no usage state -/

/-- A threat whose suggested action is block. -/
def blockThreat : Threat :=
  { threat_type := "prompt_injection", suggested_action := SecAction.block,
    description := "Detected prompt_injection patterns: 2 matches" }

/-- A threat whose suggested action is sanitize. -/
def sanitizeThreat : Threat :=
  { threat_type := "jailbreak", suggested_action := SecAction.sanitize,
    description := "Detected jailbreak patterns: 2 matches" }

/-- C5: whenever the scanner emits at least one threat whose action is
block, `chat_completions` terminates with the security rejection built
from the *first* blocking threat, and the final store carries exactly
the initial `token_usage` ledger and `usage_cache` rows: no UsageRecord
is written and no QuotaCache row is created or incremented. -/
theorem C5_security_block_no_accounting (count : String → ℕ)
    (rates : List ConversionRate) (threats : List Threat)
    (routeResult : Except String RouteOk) (db : Db)
    (api_key_id user_id organization_id : ℕ) (today month_start : ℤ)
    (prompt_text model : String)
    (h : ∃ t ∈ threats, t.suggested_action = SecAction.block) :
    (∃ t, firstBlocking threats = some t
      ∧ (chat_completions_pipeline count rates threats routeResult db api_key_id
          user_id organization_id today month_start prompt_text model).1
        = .error (.securityRejected t.description))
    ∧ (chat_completions_pipeline count rates threats routeResult db api_key_id
        user_id organization_id today month_start prompt_text model).2.token_usage
      = db.token_usage
    ∧ (chat_completions_pipeline count rates threats routeResult db api_key_id
        user_id organization_id today month_start prompt_text model).2.usage_cache
      = db.usage_cache := by
  obtain ⟨t, ht, hact⟩ := h
  have hsome : (firstBlocking threats).isSome := by
    rw [firstBlocking, List.find?_isSome]
    exact ⟨t, ht, by rw [hact]; rfl⟩
  obtain ⟨t0, ht0⟩ := Option.isSome_iff_exists.mp hsome
  refine ⟨⟨t0, ht0, ?_⟩, ?_, ?_⟩ <;>
    simp only [chat_completions_pipeline, ht0]

/-- C5 witness: a blocking injection threat beside a sanitize threat,
with a routing outcome and a store that the accounting path would have
modified; the pipeline rejects and both usage tables are untouched. -/
theorem C5_security_block_no_accounting_witness :
    (∃ t, firstBlocking [blockThreat, sanitizeThreat] = some t
      ∧ (chat_completions_pipeline fallback_count rates1
          [blockThreat, sanitizeThreat] (.ok ⟨"hi", "openai"⟩) dbQuota 1 1 1 20 0
          "hello" "gpt-4").1
        = .error (.securityRejected t.description))
    ∧ (chat_completions_pipeline fallback_count rates1
        [blockThreat, sanitizeThreat] (.ok ⟨"hi", "openai"⟩) dbQuota 1 1 1 20 0
        "hello" "gpt-4").2.token_usage = dbQuota.token_usage
    ∧ (chat_completions_pipeline fallback_count rates1
        [blockThreat, sanitizeThreat] (.ok ⟨"hi", "openai"⟩) dbQuota 1 1 1 20 0
        "hello" "gpt-4").2.usage_cache = dbQuota.usage_cache :=
  C5_security_block_no_accounting fallback_count rates1 [blockThreat, sanitizeThreat]
    (.ok ⟨"hi", "openai"⟩) dbQuota 1 1 1 20 0 "hello" "gpt-4"
    ⟨blockThreat, by decide, rfl⟩

/-! ## C6 — failover plan -/

/-- If every provider in the plan raises, the loop returns the error of
the plan's last element, whatever `last_error` it started from. -/
theorem try_providers_all_fail (outcome : String → AttemptResult) :
    ∀ (l : List String) (acc : Option String) (p : String),
      (∀ q ∈ l, isFailure (outcome q) = true) → l.getLast? = some p →
      try_providers outcome l acc = .error (errOf (outcome p)) := by
  intro l
  induction l with
  | nil =>
      intro acc p _ hlast
      simp at hlast
  | cons a rest ih =>
      intro acc p hall hlast
      have ha : isFailure (outcome a) = true := hall a (by simp)
      obtain ⟨e, he⟩ : ∃ e, outcome a = .failure e := by
        cases h : outcome a <;> simp [isFailure, h] at ha ⊢
      cases rest with
      | nil =>
          have hp : p = a := by simpa using hlast.symm
          subst hp
          simp [try_providers, he, errOf]
      | cons b rest2 =>
          have hlast2 : (b :: rest2).getLast? = some p := by
            simpa [List.getLast?_cons_cons] using hlast
          simp only [try_providers, he]
          exact ih (some e) p (fun q hq => hall q (by simp [hq])) hlast2

/-- C6: the failover plan is the selected provider followed by the
remaining candidates with the selected one removed; with distinct
candidates no provider appears twice (the router never retries a link
within one request); and when every planned attempt raises, the router
surfaces an error wrapping the *last* attempt's error. -/
theorem C6_failover_plan (primary : String) (available : List String)
    (outcome : String → AttemptResult)
    (hnd : available.Nodup)
    (hfail : ∀ q ∈ providers_to_try primary available, isFailure (outcome q) = true) :
    (providers_to_try primary available).Nodup
    ∧ providers_to_try primary available
        = primary :: available.filter (fun p => p != primary)
    ∧ ∃ p e, (providers_to_try primary available).getLast? = some p
        ∧ outcome p = .failure e
        ∧ try_providers outcome (providers_to_try primary available) none
            = .error (some e) := by
  have hplan : providers_to_try primary available
      = primary :: available.filter (fun p => p != primary) := rfl
  have hnodup : (providers_to_try primary available).Nodup := by
    rw [hplan]
    refine List.Nodup.cons ?_ (hnd.filter _)
    intro hmem
    have := List.of_mem_filter hmem
    simp at this
  have hne : providers_to_try primary available ≠ [] := by
    rw [hplan]
    exact List.cons_ne_nil _ _
  obtain ⟨p, hp⟩ := Option.isSome_iff_exists.mp (List.getLast?_isSome.mpr hne)
  have hpmem : p ∈ providers_to_try primary available := by
    obtain ⟨h2, hpe⟩ := List.mem_getLast?_eq_getLast (Option.mem_def.mpr hp)
    rw [hpe]
    exact List.getLast_mem h2
  obtain ⟨e, he⟩ : ∃ e, outcome p = .failure e := by
    have := hfail p hpmem
    cases h : outcome p <;> simp [isFailure, h] at this ⊢
  refine ⟨hnodup, hplan, p, e, hp, he, ?_⟩
  have := try_providers_all_fail outcome (providers_to_try primary available)
    none p hfail hp
  rw [this, he]
  rfl

/-- C6 witness: plan over candidates `["a", "b"]` with `a` selected;
both attempts raise; the surfaced error is attempt `b`'s. -/
theorem C6_failover_plan_witness :
    (providers_to_try "a" ["a", "b"]).Nodup
    ∧ providers_to_try "a" ["a", "b"]
        = "a" :: ["a", "b"].filter (fun p => p != "a")
    ∧ ∃ p e, (providers_to_try "a" ["a", "b"]).getLast? = some p
        ∧ (fun s => if s == "a" then AttemptResult.failure "boom-a"
            else AttemptResult.failure "boom-b") p = .failure e
        ∧ try_providers
            (fun s => if s == "a" then AttemptResult.failure "boom-a"
              else AttemptResult.failure "boom-b")
            (providers_to_try "a" ["a", "b"]) none
            = .error (some e) :=
  C6_failover_plan "a" ["a", "b"]
    (fun s => if s == "a" then AttemptResult.failure "boom-a"
      else AttemptResult.failure "boom-b")
    (by decide) (by decide)

/-! ## C7 — candidate set and the equal-timestamp boundary -/

/-- Health state with the last failure and last success at the same
instant, 100 s before now. -/
def statsTie : String → ProviderStats :=
  fun _ => { last_failure := some 100, last_success := some 100 }

/-- An enabled link advertising `m1`. -/
def connP : Connector := { name := "p", model_list := ["m1"] }

/-- C7 counterexample: at `now = 200` a link whose last failure and
last success both carry timestamp 100 is *kept* by the source (the skip
needs `last_failure > last_success`), while the claim — "last failure
within 5 minutes and not followed by a more recent success" — excludes
it: the tie timestamp is not a *more recent* success. -/
theorem C7_counterexample :
    get_available_providers [connP] statsTie "m1" 200 = ["p"]
    ∧ claim_candidate_set [connP] statsTie "m1" 200 = [] := by
  constructor
  · decide
  · decide

/-- C7 (amended): the candidate set consists exactly of the enabled
links whose advertised model list contains the requested model or is
empty, excluding links with 3 or more consecutive failures, and
excluding links whose last failure is within the last 5 minutes and is
not followed by a success *at least as recent* as the failure (an
equal-timestamp success already counts as recovery). -/
theorem C7_candidate_set_amended (connectors : List Connector)
    (stats : String → ProviderStats) (model : String) (now : ℤ) :
    get_available_providers connectors stats model now
      = amended_candidate_set connectors stats model now := by
  have h : ∀ s : ProviderStats, recent_failure_no_success s now = amended_excluded s now := by
    intro s
    rw [recent_failure_no_success, amended_excluded]
    cases s.last_failure with
    | none => rfl
    | some lf =>
        cases s.last_success with
        | none => simp
        | some ls =>
            rw [Bool.eq_iff_iff]
            simp only [Bool.and_eq_true, decide_eq_true_eq, Bool.not_eq_true,
              Bool.not_eq_true', decide_eq_false_iff_not, not_le]
            omega
  unfold get_available_providers amended_candidate_set
  congr 1
  funext c
  rw [h (stats c.name)]

/-! ## C9 — threat rate-limit counting -/

/-- A security-log row inside the window but belonging to credential 2. -/
def otherKeyLog : SecurityLogRow :=
  { timestamp := 100, api_key_id := some 2, user_id := some 2,
    organization_id := some 1, threat_type := "prompt_injection",
    blocked := true, ip_address := some "10.0.0.9" }

/-- Twenty such rows. -/
def logs20 : List SecurityLogRow := List.replicate 20 otherKeyLog

/-- C9: checking credential 1 against the balanced threshold 20 when the
last hour holds 20 events that all belong to credential 2.  The claim's
conjunction counts 0 rows for credential 1, so the check passes; the
source's first-condition-only count is 20, which already trips the
threshold — and the method cannot even run, since `timedelta` is used
without being imported. -/
theorem C9_rate_limit_bug :
    check_rate_limit_spec true 20 logs20 100 (some 1) none none = true
    ∧ check_rate_limit_code_count logs20 100 = 20
    ∧ (check_rate_limit_code_count logs20 100 < 20) = False := by
  refine ⟨by decide, by decide, ?_⟩
  decide

/-! ## C8 — load-balanced selection -/

/-- Fresh statistics for every provider (all fields at their
`ProviderStats()` defaults). -/
def statsZero : String → ProviderStats := fun _ => {}

/-- Two pointwise-equal predicates find the same first element. -/
theorem find?_congr_mem {α : Type} (p q : α → Bool) (l : List α)
    (h : ∀ x ∈ l, p x = q x) : l.find? p = l.find? q := by
  induction l with
  | nil => rfl
  | cons a as ih =>
      simp only [List.find?]
      rw [h a (by simp)]
      cases q a
      · exact ih (fun x hx => h x (by simp [hx]))
      · rfl

/-- The selection loop keeps its current best when nothing in the rest
of the scan beats the running minimum. -/
theorem lb_loop_stable (stats : String → ProviderStats) :
    ∀ (l : List String) (m : Option ℤ) (b : String),
      (∀ q ∈ l, ltInf (load_score (stats q)) m = false) →
      lb_loop stats l m b = b := by
  intro l
  induction l with
  | nil => intro m b _; rfl
  | cons a rest ih =>
      intro m b hall
      have ha : ltInf (load_score (stats a)) m = false := hall a (by simp)
      simp only [lb_loop, ha, Bool.false_eq_true, if_false]
      exact ih m b (fun q hq => hall q (by simp [hq]))

/-- Characterization of the selection loop: as soon as something in the
scan beats the running minimum, the loop returns the first element that
beats the running minimum and is minimal among the whole scan. -/
theorem lb_loop_find (stats : String → ProviderStats) :
    ∀ (l : List String) (m : Option ℤ) (b : String),
      (∃ q ∈ l, ltInf (load_score (stats q)) m = true) →
      l.find? (fun x => ltInf (load_score (stats x)) m
          && l.all (fun q => decide (load_score (stats x) ≤ load_score (stats q))))
        = some (lb_loop stats l m b) := by
  intro l
  induction l with
  | nil =>
      intro m b h
      simp at h
  | cons p rest ih =>
      intro m b hex
      by_cases hp : ltInf (load_score (stats p)) m = true
      · have hstep : lb_loop stats (p :: rest) m b
            = lb_loop stats rest (some (load_score (stats p))) p := by
          simp only [lb_loop, hp, if_true]
        by_cases hA : ∃ q ∈ rest,
            ltInf (load_score (stats q)) (some (load_score (stats p))) = true
        · obtain ⟨q, hq, hqlt⟩ := hA
          have hqlt' : load_score (stats q) < load_score (stats p) := by
            simpa [ltInf] using hqlt
          have hall : ((p :: rest).all
              (fun r => decide (load_score (stats p) ≤ load_score (stats r)))) = false := by
            cases hc : (p :: rest).all
                (fun r => decide (load_score (stats p) ≤ load_score (stats r)))
            · rfl
            · exfalso
              have := List.all_eq_true.mp hc q (by simp [hq])
              simp at this
              omega
          rw [hstep]
          have hskip : List.find?
              (fun x => ltInf (load_score (stats x)) m && (p :: rest).all
                (fun q => decide (load_score (stats x) ≤ load_score (stats q))))
              (p :: rest)
              = List.find?
              (fun x => ltInf (load_score (stats x)) m && (p :: rest).all
                (fun q => decide (load_score (stats x) ≤ load_score (stats q))))
              rest := by
            simp only [List.find?, hall, Bool.and_false]
          rw [hskip]
          rw [find?_congr_mem
            (fun x => ltInf (load_score (stats x)) m && (p :: rest).all
              (fun q => decide (load_score (stats x) ≤ load_score (stats q))))
            (fun x => ltInf (load_score (stats x)) (some (load_score (stats p)))
              && rest.all (fun q => decide (load_score (stats x) ≤ load_score (stats q))))
            rest ?_]
          · exact ih (some (load_score (stats p))) p ⟨q, hq, hqlt⟩
          · intro x hx
            by_cases hallx : rest.all
                (fun r => decide (load_score (stats x) ≤ load_score (stats r))) = true
            · have hxq : load_score (stats x) ≤ load_score (stats q) := by
                have := List.all_eq_true.mp hallx q hq
                simpa using this
              have hxp : load_score (stats x) < load_score (stats p) := lt_of_le_of_lt hxq hqlt'
              have hltm : ltInf (load_score (stats x)) m = true := by
                cases m with
                | none => rfl
                | some m0 =>
                    have hpm : load_score (stats p) < m0 := by simpa [ltInf] using hp
                    simp only [ltInf, decide_eq_true_eq]
                    omega
              dsimp only
              rw [hltm, List.all_cons, hallx]
              simp [ltInf, hxp, hxp.le]
            · have hfalse : rest.all
                  (fun r => decide (load_score (stats x) ≤ load_score (stats r))) = false :=
                Bool.eq_false_iff.mpr hallx
              simp [List.all_cons, hfalse]
        · have hA2 : ∀ q ∈ rest,
              ltInf (load_score (stats q)) (some (load_score (stats p))) = false := by
            intro q hq
            cases hc : ltInf (load_score (stats q)) (some (load_score (stats p)))
            · rfl
            · exact absurd ⟨q, hq, hc⟩ hA
          have hkeep : lb_loop stats rest (some (load_score (stats p))) p = p :=
            lb_loop_stable stats rest _ p hA2
          have hPp : (ltInf (load_score (stats p)) m && (p :: rest).all
              (fun r => decide (load_score (stats p) ≤ load_score (stats r)))) = true := by
            rw [hp, Bool.true_and, List.all_eq_true]
            intro r hr
            rcases List.mem_cons.mp hr with h | h
            · subst h; simp
            · have := hA2 r h
              simp only [ltInf, decide_eq_false_iff_not, not_lt] at this
              simpa using this
          rw [hstep, hkeep]
          simp only [List.find?, hp, Bool.true_and]
          have hallp : ((p :: rest).all
              (fun r => decide (load_score (stats p) ≤ load_score (stats r)))) = true := by
            rw [hp, Bool.true_and] at hPp
            exact hPp
          rw [hallp]
      · have hp' : ltInf (load_score (stats p)) m = false := Bool.eq_false_iff.mpr hp
        obtain ⟨m0, hm0, hm0le⟩ : ∃ m0, m = some m0 ∧ m0 ≤ load_score (stats p) := by
          cases m with
          | none => exact absurd rfl hp
          | some m0 =>
              refine ⟨m0, rfl, ?_⟩
              have := hp'
              simp only [ltInf, decide_eq_false_iff_not, not_lt] at this
              exact this
        have hstep : lb_loop stats (p :: rest) m b = lb_loop stats rest m b := by
          simp only [lb_loop, hp', Bool.false_eq_true, if_false]
        obtain ⟨q, hq, hqlt⟩ := hex
        have hq' : q ∈ rest := by
          rcases List.mem_cons.mp hq with h | h
          · subst h; exact absurd hqlt (by simp [hp'])
          · exact h
        rw [hstep]
        have hskip : List.find?
            (fun x => ltInf (load_score (stats x)) m && (p :: rest).all
              (fun q => decide (load_score (stats x) ≤ load_score (stats q))))
            (p :: rest)
            = List.find?
            (fun x => ltInf (load_score (stats x)) m && (p :: rest).all
              (fun q => decide (load_score (stats x) ≤ load_score (stats q))))
            rest := by
          simp only [List.find?, hp', Bool.false_and]
        rw [hskip]
        rw [find?_congr_mem
          (fun x => ltInf (load_score (stats x)) m && (p :: rest).all
            (fun q => decide (load_score (stats x) ≤ load_score (stats q))))
          (fun x => ltInf (load_score (stats x)) m
            && rest.all (fun q => decide (load_score (stats x) ≤ load_score (stats q))))
          rest ?_]
        · exact ih m b ⟨q, hq', hqlt⟩
        · intro x hx
          cases hltx : ltInf (load_score (stats x)) m
          · simp [hltx]
          · have hxm : load_score (stats x) < m0 := by
              subst hm0
              simpa [ltInf] using hltx
            have hxp : load_score (stats x) ≤ load_score (stats p) :=
              le_of_lt (lt_of_lt_of_le hxm hm0le)
            dsimp only
            rw [hltx, List.all_cons]
            simp [hxp]

/-- C8 counterexample: two candidates `["b", "a"]` with identical
(zero) statistics.  Both score 0; the claim's lexicographic tie-break
picks `"a"`, but the source's strict-improvement scan keeps the first
candidate `"b"`. -/
theorem C8_counterexample :
    load_balanced_selection statsZero ["b", "a"] = "b"
    ∧ claim_lb_selection statsZero ["b", "a"] = some "a"
    ∧ "b" ≠ "a" := by
  refine ⟨by decide, by decide, by decide⟩

/-- C8 (amended): on a non-empty candidate list the selection returns
the *first candidate in candidate order* whose score
`(total_requests - successful_requests) + 10 * consecutive_failures`
is less than or equal to every candidate's score — ties are broken by
scan order, not lexicographically. -/
theorem C8_load_balanced_first_min (stats : String → ProviderStats)
    (providers : List String) (h : providers ≠ []) :
    first_min_candidate stats providers
      = some (load_balanced_selection stats providers) := by
  cases providers with
  | nil => exact absurd rfl h
  | cons p rest =>
      rw [load_balanced_selection]
      have hex : ∃ q ∈ p :: rest, ltInf (load_score (stats q)) none = true :=
        ⟨p, by simp, rfl⟩
      rw [first_min_candidate,
        find?_congr_mem _
          (fun x => ltInf (load_score (stats x)) none
            && (p :: rest).all
              (fun q => decide (load_score (stats x) ≤ load_score (stats q))))
          (p :: rest) (fun x _ => by simp [ltInf])]
      exact lb_loop_find stats (p :: rest) none p hex

/-- C8 witness: the amended theorem applied at candidates `["b", "a"]`
with all-zero statistics — the selection is the scan-order first
minimizer. -/
theorem C8_load_balanced_first_min_witness :
    first_min_candidate statsZero ["b", "a"]
      = some (load_balanced_selection statsZero ["b", "a"]) :=
  C8_load_balanced_first_min statsZero ["b", "a"] (by decide)

end WaddleAI
